import Mathlib

set_option autoImplicit false

/-!
Shallow embedding of the Railz AI source connector components
(`source_railz_ai/components.py`) and proofs about them.

Python dictionaries are modelled as insertion-ordered association lists
`List (String × Json)`; `d[k] = v` replaces the first binding of `k` in
place (keeping its position, as CPython does) or appends a new binding,
and `d.update(e)` folds that assignment over `e`. Python `set` objects of
strings are modelled as duplicate-free lists with membership-tested add.
-/

namespace RailzAi

/-- JSON-like values as delivered by `response.json()` and passed around as
records, slices and cursor state. -/
inductive Json where
  | str : String → Json
  | num : Int → Json
  | bool : Bool → Json
  | null : Json
  | arr : List Json → Json
  | obj : List (String × Json) → Json
deriving Repr

/-- A JSON object body: insertion-ordered key/value bindings (a Python dict). -/
abbrev JObj := List (String × Json)

/-- Python `d[key]` lookup (first binding wins; dicts built by the source have
unique keys). -/
def getVal {β : Type} : List (String × β) → String → Option β
  | [], _ => none
  | (k, v) :: rest, key => if k = key then some v else getVal rest key

/-- Python `key in d`. -/
def hasKey {β : Type} (d : List (String × β)) (key : String) : Bool :=
  (getVal d key).isSome

/-- Python `d[key] = v`: replace the first binding of `key` in place, else
append a new binding at the end. -/
def setVal {β : Type} : List (String × β) → String → β → List (String × β)
  | [], key, v => [(key, v)]
  | (k, w) :: rest, key, v =>
      if k = key then (key, v) :: rest else (k, w) :: setVal rest key v

/-- Python `d.update(e)`: assign every binding of `e` into `d`, in order. -/
def updateDict (d e : JObj) : JObj :=
  e.foldl (fun acc p => setVal acc p.1 p.2) d

/-- Python `set.add` for string sets modelled as duplicate-free insertion-order
lists. -/
def ssetAdd (l : List String) (x : String) : List String :=
  if x ∈ l then l else l ++ [x]

/-- Coerce a JSON value to an object body, as Python indexing `v[k]` requires. -/
def asObj : Json → Option JObj
  | Json.obj o => some o
  | _ => none

/-- Coerce a JSON value to a string. -/
def asStr : Json → Option String
  | Json.str s => some s
  | _ => none

/-- Look up a string-valued field: `d[key]` expected to be a string. -/
def getStr (d : JObj) (key : String) : Option String :=
  (getVal d key).bind asStr

/-- Look up an object-valued field: `d[key]` expected to be a dict. -/
def getObj (d : JObj) (key : String) : Option JObj :=
  (getVal d key).bind asObj

theorem getVal_setVal_self {β : Type} (d : List (String × β)) (k : String) (v : β) :
    getVal (setVal d k v) k = some v := by
  induction d with
  | nil => simp [setVal, getVal]
  | cons p rest ih =>
      obtain ⟨k₁, w⟩ := p
      by_cases h : k₁ = k
      · simp [setVal, h, getVal]
      · simp [setVal, h, getVal, ih]

theorem getVal_setVal_ne {β : Type} (d : List (String × β)) (k k' : String) (v : β) (h : k' ≠ k) :
    getVal (setVal d k v) k' = getVal d k' := by
  have h' : k ≠ k' := fun hh => h hh.symm
  induction d with
  | nil => simp [setVal, getVal, h']
  | cons p rest ih =>
      obtain ⟨k₁, w⟩ := p
      by_cases hk : k₁ = k
      · subst hk
        simp [setVal, getVal, h']
      · simp [setVal, hk, getVal, ih]

theorem setVal_eq_self {β : Type} (d : List (String × β)) (k : String) (v : β)
    (h : getVal d k = some v) : setVal d k v = d := by
  induction d with
  | nil => simp [getVal] at h
  | cons p rest ih =>
      obtain ⟨k₁, w⟩ := p
      by_cases hk : k₁ = k
      · subst hk
        simp [getVal] at h
        simp [setVal, h]
      · simp [getVal, hk] at h
        simp [setVal, hk, ih h]

/-- Keys absent from an association list look up to `none`. -/
theorem getVal_eq_none_of_not_mem {β : Type} (d : List (String × β)) (k : String)
    (h : k ∉ d.map Prod.fst) : getVal d k = none := by
  induction d with
  | nil => rfl
  | cons p rest ih =>
      obtain ⟨k₁, w⟩ := p
      have h₁ : k₁ ≠ k := by
        intro hh
        exact h (by simp [hh])
      have h₂ : k ∉ rest.map Prod.fst := by
        intro hh
        exact h (by simp [hh])
      simp [getVal, h₁, ih h₂]

/-- Characterisation of `d.update(e)` lookups when `e` has no duplicate keys:
bindings of `e` win, all other keys fall through to `d`. -/
theorem getVal_updateDict (d e : JObj) (k : String)
    (h : (e.map Prod.fst).Nodup) :
    getVal (updateDict d e) k =
      match getVal e k with
      | some v => some v
      | none => getVal d k := by
  induction e generalizing d with
  | nil => simp [updateDict, getVal]
  | cons p rest ih =>
      obtain ⟨k₁, v₁⟩ := p
      rw [List.map_cons, List.nodup_cons] at h
      have hstep : updateDict d ((k₁, v₁) :: rest) = updateDict (setVal d k₁ v₁) rest := rfl
      rw [hstep, ih _ h.2]
      by_cases hk : k₁ = k
      · subst hk
        have hrest : getVal rest k₁ = none := getVal_eq_none_of_not_mem rest k₁ h.1
        simp [getVal, hrest, getVal_setVal_self]
      · have hk' : k ≠ k₁ := fun hh => hk hh.symm
        cases hr : getVal rest k with
        | some v => simp [getVal, hk, hr]
        | none => simp [getVal, hk, hr, getVal_setVal_ne _ _ _ _ hk']

/-! ### RailzAiServiceSlicer: parent stream data and slice enumeration -/

/-- A connection entry of a parent record: the fields
`connection["serviceName"]` and `connection["status"]` read by the slicer. -/
structure Connection where
  serviceName : String
  status : String
deriving Repr, DecidableEq

/-- A parent record as read by `stream_slices`: the fields
`parent_record["businessName"]` and `parent_record["connections"]`. -/
structure ParentRecord where
  businessName : String
  connections : List Connection
deriving Repr, DecidableEq

/-- What `parent_stream.read_records` may yield: a plain record mapping, an
`AirbyteMessage` whose `type` is `Type.RECORD` (its `record.data` is used), or
an `AirbyteMessage` of any other type (skipped by the slicer). -/
inductive StreamData where
  | raw : ParentRecord → StreamData
  | messageRecord : ParentRecord → StreamData
  | messageOther : StreamData
deriving Repr, DecidableEq

/-- The record extracted from one yielded item, if any (the
`isinstance(parent_record, AirbyteMessage)` normalisation). -/
def normalizeParentRecord : StreamData → Option ParentRecord
  | StreamData.raw r => some r
  | StreamData.messageRecord r => some r
  | StreamData.messageOther => none

/-- The `{"businessName": ..., "serviceName": ...}` mapping yielded by
`RailzAiServiceSlicer.stream_slices`. -/
structure SvcSlice where
  businessName : String
  serviceName : String
deriving Repr, DecidableEq

namespace RailzAiServiceSlicer

/-- `RailzAiServiceSlicer._check_valid_service`. -/
def check_valid_service (connection : Connection) : Bool :=
  ["active", "disconnected", "expired"].contains connection.status

/-- Slices contributed by one parent record: the inner
`for connection in parent_record["connections"]` loop. -/
def record_slices (r : ParentRecord) : List SvcSlice :=
  r.connections.filterMap fun c =>
    if check_valid_service c then some ⟨r.businessName, c.serviceName⟩ else none

/-- Slices contributed by one parent stream slice, i.e. one pass of the
`for parent_record in parent_stream.read_records(...)` loop. The
`empty_parent_slice` flag in the source only guards a final `yield from []`,
which yields nothing whether or not the flag is still set. -/
def parent_slice_slices (recs : List StreamData) : List SvcSlice :=
  recs.flatMap fun sd =>
    match normalizeParentRecord sd with
    | none => []
    | some r => record_slices r

/-- `RailzAiServiceSlicer.stream_slices`: `none` models a missing
`parent_stream_config` (yields nothing); otherwise the parent stream is given
by the list of its stream slices, each with the stream data its
`read_records` yields. -/
def stream_slices (parent : Option (List (List StreamData))) : List SvcSlice :=
  match parent with
  | none => []
  | some parentSlices => parentSlices.flatMap parent_slice_slices

/-- Values stored in the non-incremental slicer's `_cursor` dict: JSON values
merged in by the `last_record is None` branch, or Python sets of service
names (duplicate-free lists) built by the record branch. -/
inductive SVal where
  | js : Json → SVal
  | sset : List String → SVal
deriving Repr

/-- `RailzAiServiceSlicer.update_cursor`. With no record,
`self._cursor.update(stream_slice)` merges the given mapping's bindings; with
a record, the slice's service name is added to the set stored at the slice's
business name (an empty set is created first if needed). `none` models a
Python runtime error (missing slice key, or a non-set stored at the business
name). -/
def update_cursor (cursor : List (String × SVal)) (stream_slice : JObj)
    (last_record : Option JObj) : Option (List (String × SVal)) :=
  match last_record with
  | none =>
      some (stream_slice.foldl (fun acc p => setVal acc p.1 (SVal.js p.2)) cursor)
  | some _ => do
      let b ← getStr stream_slice "businessName"
      let c1 := if hasKey cursor b then cursor else setVal cursor b (SVal.sset [])
      let bset ← match getVal c1 b with
        | some (SVal.sset l) => some l
        | _ => none
      let s ← getStr stream_slice "serviceName"
      pure (setVal c1 b (SVal.sset (ssetAdd bset s)))

end RailzAiServiceSlicer

namespace RailzAiIncrementalServiceSlicer

/-- `RailzAiIncrementalServiceSlicer.update_cursor`. `cursorField` is the
evaluated `self._datetime_cursor_field`. With no record the cursor dict is
merged with the given mapping (`self._cursor.update(stream_slice)`); with a
record, the nested per-(business, service) dict is created on demand and its
cursor-field entry is set to the record's value when the entry is absent or
compares smaller. The nested in-place mutations of the source are rendered by
writing the updated inner dicts back into the outer ones. `none` models a
Python runtime error (missing key, or a non-dict/non-string where the code
needs one). -/
def update_cursor (cursorField : String) (cursor : JObj) (stream_slice : JObj)
    (last_record : Option JObj) : Option JObj :=
  match last_record with
  | none => some (updateDict cursor stream_slice)
  | some record => do
      let b ← getStr stream_slice "businessName"
      let c1 := if hasKey cursor b then cursor else setVal cursor b (Json.obj [])
      let s ← getStr stream_slice "serviceName"
      let bObj ← getObj c1 b
      let bObj1 := if hasKey bObj s then bObj else setVal bObj s (Json.obj [])
      let service ← getObj bObj1 s
      let v ← getStr record cursorField
      let service1 ←
        match getVal service cursorField with
        | none => some (setVal service cursorField (Json.str v))
        | some old => do
            let w ← asStr old
            pure (if w < v then setVal service cursorField (Json.str v) else service)
      pure (setVal c1 b (Json.obj (setVal bObj1 s (Json.obj service1))))

/-- The stored cursor value for a (business, service) pair:
`state[b][s][cursorField]` read through `get_stream_state`. -/
def cursorLookup (cursor : JObj) (b s cursorField : String) : Option String :=
  (getObj cursor b).bind fun bObj =>
    (getObj bObj s).bind fun service =>
      getStr service cursorField

/-- The shapes under which the record branch of `update_cursor` runs without a
Python runtime error: whatever already sits at `cursor[b]`, `cursor[b][s]` and
`cursor[b][s][cursorField]` is respectively a dict, a dict and a string, when
present at all. -/
def shapeOK (cursor : JObj) (b s cursorField : String) : Prop :=
  match getVal cursor b with
  | none => True
  | some (Json.obj bObj) =>
      match getVal bObj s with
      | none => True
      | some (Json.obj service) =>
          match getVal service cursorField with
          | none => True
          | some (Json.str _) => True
          | some _ => False
      | some _ => False
  | some _ => False

end RailzAiIncrementalServiceSlicer

/-! ### RailzAiServiceRetriever: per-service failure isolation -/

namespace RailzAiServiceRetriever

/-- How one generator run of the underlying `SimpleRetriever.read_records`
finishes: normal exhaustion, a `ReadException`, or an exception of any other
kind. -/
inductive Outcome where
  | ok : Outcome
  | readException : String → Outcome
  | otherException : String → Outcome
deriving Repr, DecidableEq

/-- The behaviour of the underlying read on one slice: the records it yields
before finishing, and how it finishes. -/
structure UnderlyingRead where
  records : List Json
  outcome : Outcome
deriving Repr

/-- The observable result of one `RailzAiServiceRetriever.read_records` call:
the records delivered to the caller, the failed-service set afterwards, the
exception propagated to the caller (if any), whether the underlying read was
invoked at all, and the warnings logged. -/
structure ReadResult where
  records : List Json
  failedServices : List String
  raised : Option String
  underlyingCalled : Bool
  warnings : List String
deriving Repr

/-- `RailzAiServiceRetriever.read_records` on one slice, given the behaviour
`u` the underlying `super().read_records` generator would have. Records
yielded by the underlying generator before an exception have already been
passed through to the caller. -/
def read_records (failedServices : List String) (slice : SvcSlice)
    (u : UnderlyingRead) : ReadResult :=
  if slice.serviceName ∈ failedServices then
    { records := [], failedServices := failedServices, raised := none,
      underlyingCalled := false, warnings := [] }
  else
    match u.outcome with
    | Outcome.ok =>
        { records := u.records, failedServices := failedServices, raised := none,
          underlyingCalled := true, warnings := [] }
    | Outcome.readException msg =>
        { records := u.records, failedServices := ssetAdd failedServices slice.serviceName,
          raised := none, underlyingCalled := true, warnings := [msg] }
    | Outcome.otherException msg =>
        { records := u.records, failedServices := failedServices,
          raised := some msg, underlyingCalled := true, warnings := [] }

/-- The failed-service set after a sequence of `read_records` calls. -/
def failedAfter (failedServices : List String)
    (steps : List (SvcSlice × UnderlyingRead)) : List String :=
  steps.foldl (fun f su => (read_records f su.1 su.2).failedServices) failedServices

/-- A whole sync run: the calls are processed in order, threading the
failed-service set through. -/
def runReads : List String → List (SvcSlice × UnderlyingRead) → List ReadResult
  | _, [] => []
  | failed, (slice, u) :: rest =>
      let r := read_records failed slice u
      r :: runReads r.failedServices rest

end RailzAiServiceRetriever

/-! ### RailzAiReportsSelector / RailzAiIncrementalReportsSelector -/

/-- Coerce a JSON value to an array. -/
def asArr : Json → Option (List Json)
  | Json.arr l => some l
  | _ => none

namespace RailzAiReportsSelector

/-- `RailzAiReportsSelector._default_meta_fields`. -/
def default_meta_fields : List String := ["reportId"]

/-- `self.meta_fields or self._default_meta_fields`: Python `or` falls back to
the defaults on `None` and on an empty list alike. -/
def effective_meta_fields (metaFields : Option (List String))
    (defaults : List String) : List String :=
  match metaFields with
  | some (f :: fs) => f :: fs
  | _ => defaults

/-- `record["data"] if isinstance(record["data"], list) else [record["data"]]`. -/
def normalize_data : Json → List Json
  | Json.arr l => l
  | v => [v]

/-- One appended record:
`{**data_element, **{f: v for f, v in record["meta"].items() if f in meta_fields}}`.
The data element must itself be a dict for the `{**data_element}` splat. -/
def select_one (metaFields : List String) (meta : JObj) (dataElement : Json) :
    Option JObj := do
  let d ← asObj dataElement
  pure (updateDict d (meta.filter (fun p => metaFields.contains p.1)))

/-- One pass of the `for record in records` loop over the records the
framework's `super().select_records` extracted: the record must carry `data`
and a dict-valued `meta`. -/
def select_record (metaFields : Option (List String)) (defaults : List String)
    (record : JObj) : Option (List JObj) := do
  let dataVal ← getVal record "data"
  let metaObj ← getObj record "meta"
  (normalize_data dataVal).mapM (select_one (effective_meta_fields metaFields defaults) metaObj)

/-- `RailzAiReportsSelector.select_records`, applied to the list of records the
framework extracted from the response. -/
def select_records (metaFields : Option (List String)) (defaults : List String)
    (records : List JObj) : Option (List JObj) :=
  (records.mapM (select_record metaFields defaults)).map List.flatten

end RailzAiReportsSelector

namespace RailzAiIncrementalReportsSelector

/-- `RailzAiIncrementalReportsSelector._default_meta_fields`. -/
def incremental_default_meta_fields : List String := ["reportId", "startDate", "endDate"]

end RailzAiIncrementalReportsSelector

/-! ### ShortLivedTokenAuthenticator -/

namespace ShortLivedTokenAuthenticator

/-- A normalised Python `datetime.timedelta`: whole `days` plus the
within-day `seconds` component (`0 ≤ seconds < 86400`). -/
structure Timedelta where
  days : Nat
  seconds : Nat
deriving Repr, DecidableEq

/-- The total length in seconds denoted by a timedelta — the spec-side
reading of "the configured lifetime in seconds" (Python
`timedelta.total_seconds()`, which the source does not use). -/
def Timedelta.totalSeconds (t : Timedelta) : Nat :=
  t.days * 86400 + t.seconds

/-- `isodate.parse_duration` on a `PT<n>S` duration string followed by
`datetime.timedelta` normalisation: `timedelta(seconds=n)` carries
`n / 86400` days and `n % 86400` within-day seconds. -/
def timedeltaOfSeconds (n : Nat) : Timedelta :=
  { days := n / 86400, seconds := n % 86400 }

/-- `ShortLivedTokenAuthenticator._parse_timedelta`. The duration string is
represented by `none` for missing/empty (Python falsy, giving `timedelta(0)`)
and by `some n` for the `PT<n>S` second form the connector's configuration
uses (the default is `PT3600S`). -/
def parse_timedelta (timeStr : Option Nat) : Timedelta :=
  match timeStr with
  | none => { days := 0, seconds := 0 }
  | some n => timedeltaOfSeconds n

/-- The authenticator's mutable cache: `self._token` and `self._timestamp`. -/
structure AuthState where
  token : Option String
  timestamp : Option Int
deriving Repr, DecidableEq

/-- Python falsiness of `self._token`: `None` or the empty string. -/
def tokenFalsy : Option String → Bool
  | none => true
  | some t => t == ""

/-- The result of one `check_token` call: the cache afterwards, whether a
network fetch was issued, and the exception raised (the token key missing
from the response body). -/
structure CheckResult where
  state : AuthState
  fetched : Bool
  raised : Option String
deriving Repr, DecidableEq

/-- `ShortLivedTokenAuthenticator.check_token` at time `now`, with the parsed
`lifetime`, the evaluated `token_key`, and `response` the JSON body the token
endpoint would return if called (token endpoints map keys to strings). The
source compares the elapsed time against `lifetime.seconds` — the within-day
seconds component — not against the total duration. -/
def check_token (lifetime : Timedelta) (tokenKey : String)
    (response : List (String × String)) (st : AuthState) (now : Int) : CheckResult :=
  if tokenFalsy st.token || decide (now - st.timestamp.getD 0 ≥ (lifetime.seconds : Int)) then
    match getVal response tokenKey with
    | none =>
        { state := st, fetched := true, raised := some "token_key not found in response" }
    | some t =>
        { state := { token := some t, timestamp := some now }, fetched := true, raised := none }
  else
    { state := st, fetched := false, raised := none }

end ShortLivedTokenAuthenticator

/-! ### RailzNestedExtractor -/

namespace RailzNestedExtractor

/-- The extractor configuration as left by `__post_init__`. -/
structure ExtractorConfig where
  nested_fields : List String
  propagate_fields : List String
  prefix_key : Option String
deriving Repr, DecidableEq

/-- `RailzNestedExtractor.__post_init__`. The guard
`if not self._nested_fields:` evaluates the expression
`ValueError("nested_fields cannot be empty")` and discards it — there is no
`raise` — so construction succeeds for every input, including an empty
`nested_fields` list. -/
def post_init (nested_fields propagate_fields : List String)
    (prefix_key : Option String) : Except String ExtractorConfig :=
  Except.ok { nested_fields := nested_fields, propagate_fields := propagate_fields,
              prefix_key := prefix_key }

/-- The propagation loop body of `_extract_records`:
`record[propagate_field] = obj[propagate_field]` for every propagate field
present on `obj`, in order. -/
def propagate_into (propagateFields : List String) (obj child : JObj) : JObj :=
  propagateFields.foldl
    (fun acc pf =>
      match getVal obj pf with
      | some v => setVal acc pf v
      | none => acc)
    child

/-- `RailzNestedExtractor._extract_records`: pop the next path field, iterate
the list stored there, propagate onto each child, then recurse on the rest of
the path or yield the child. The generator is collected into a list; `none`
models a Python runtime error (pop from an empty path, a missing field, or a
non-list/non-dict where one is required). -/
def extract_records_aux (propagateFields : List String) :
    List String → JObj → Option (List JObj)
  | [], _ => none
  | fieldName :: restFields, obj => do
      let children ← (getVal obj fieldName).bind asArr
      let childObjs ← children.mapM asObj
      let propagated := childObjs.map (propagate_into propagateFields obj)
      match restFields with
      | [] => pure propagated
      | _ :: _ => do
          let nested ← propagated.mapM (extract_records_aux propagateFields restFields)
          pure nested.flatten

/-- `RailzNestedExtractor.extract_records` on a response body. The evaluated
`prefix_key` wraps every record when truthy; a `None` or empty-string prefix
key (both Python-falsy) wraps nothing. -/
def extract_records (cfg : ExtractorConfig) (responseJson : JObj) :
    Option (List Json) := do
  let recs ← extract_records_aux cfg.propagate_fields cfg.nested_fields responseJson
  pure (recs.map fun record =>
    match cfg.prefix_key with
    | some k => if k = "" then Json.obj record else Json.obj [(k, Json.obj record)]
    | none => Json.obj record)

end RailzNestedExtractor

/-! ### General list lemmas used to characterise the loops -/

theorem flatMap_match_eq_filterMap_flatMap {α β γ : Type} (f : α → Option β)
    (g : β → List γ) (l : List α) :
    (l.flatMap fun a => match f a with | none => [] | some b => g b)
      = (l.filterMap f).flatMap g := by
  induction l with
  | nil => rfl
  | cons a rest ih =>
      cases hf : f a <;> simp [List.filterMap_cons, hf, ih]

theorem filterMap_if_eq_map_filter {α β : Type} (p : α → Bool) (g : α → β) (l : List α) :
    (l.filterMap fun a => if p a then some (g a) else none)
      = (l.filter p).map g := by
  induction l with
  | nil => rfl
  | cons a rest ih =>
      by_cases hp : p a <;> simp [List.filterMap_cons, List.filter_cons, hp, ih]

theorem check_valid_service_eq_mem (c : Connection) :
    RailzAiServiceSlicer.check_valid_service c
      = decide (c.status ∈ (["active", "disconnected", "expired"] : List String)) := by
  simp [RailzAiServiceSlicer.check_valid_service]

theorem parent_slice_slices_eq (recs : List StreamData) :
    RailzAiServiceSlicer.parent_slice_slices recs
      = (recs.filterMap normalizeParentRecord).flatMap RailzAiServiceSlicer.record_slices := by
  induction recs with
  | nil => rfl
  | cons sd rest ih =>
      cases hn : normalizeParentRecord sd <;>
        simp [RailzAiServiceSlicer.parent_slice_slices, List.filterMap_cons, hn] <;>
        simpa [RailzAiServiceSlicer.parent_slice_slices] using ih

/-! ### C2 -/

/-- C2: `RailzAiServiceSlicer.stream_slices` yields, for every parent record of
every parent slice (in order), exactly the connections whose status is one of
active, disconnected, expired, as `{businessName, serviceName}` slices in
parent-slice order then connection order; a parent slice all of whose
connections fail the filter contributes no slices; and the Acme parent record
with an active svc1 and a pending svc2 yields exactly the one slice
(Acme, svc1). -/
theorem C2_stream_slices_filters_connections :
    (∀ parentSlices : List (List StreamData),
      RailzAiServiceSlicer.stream_slices (some parentSlices) =
        parentSlices.flatMap (fun recs =>
          (recs.filterMap normalizeParentRecord).flatMap (fun r =>
            (r.connections.filter
                (fun c => c.status ∈ (["active", "disconnected", "expired"] : List String))).map
              (fun c => SvcSlice.mk r.businessName c.serviceName)))) ∧
    (∀ recs : List StreamData,
      (∀ r ∈ recs.filterMap normalizeParentRecord, ∀ c ∈ r.connections,
          RailzAiServiceSlicer.check_valid_service c = false) →
        RailzAiServiceSlicer.parent_slice_slices recs = []) ∧
    RailzAiServiceSlicer.stream_slices
        (some [[StreamData.raw ⟨"Acme", [⟨"svc1", "active"⟩, ⟨"svc2", "pending"⟩]⟩]]) =
      [⟨"Acme", "svc1"⟩] := by
  have hrec : ∀ r : ParentRecord,
      RailzAiServiceSlicer.record_slices r =
        (r.connections.filter
            (fun c => c.status ∈ (["active", "disconnected", "expired"] : List String))).map
          (fun c => SvcSlice.mk r.businessName c.serviceName) := by
    intro r
    rw [RailzAiServiceSlicer.record_slices, filterMap_if_eq_map_filter]
    congr 1
    apply List.filter_congr
    intro c _
    rw [check_valid_service_eq_mem]
  refine ⟨?_, ?_, ?_⟩
  · intro parentSlices
    show parentSlices.flatMap (fun recs => RailzAiServiceSlicer.parent_slice_slices recs) = _
    have hfun : RailzAiServiceSlicer.record_slices = fun r : ParentRecord =>
        (r.connections.filter
            (fun c => c.status ∈ (["active", "disconnected", "expired"] : List String))).map
          (fun c => SvcSlice.mk r.businessName c.serviceName) := funext hrec
    simp only [parent_slice_slices_eq, hfun]
  · intro recs h
    rw [parent_slice_slices_eq recs]
    apply List.flatMap_eq_nil_iff.mpr
    intro r hr
    rw [hrec r]
    simp only [List.map_eq_nil_iff, List.filter_eq_nil_iff]
    intro c hc
    have hv := h r hr c hc
    rw [check_valid_service_eq_mem] at hv
    simpa using hv
  · rfl

theorem C2_stream_slices_filters_connections_witness :
    RailzAiServiceSlicer.parent_slice_slices
        [StreamData.raw ⟨"B", [⟨"s1", "pending"⟩, ⟨"s2", "invalid"⟩]⟩] = [] :=
  C2_stream_slices_filters_connections.2.1 _ (by decide)

/-! ### C10 -/

theorem mem_ssetAdd_self (l : List String) (x : String) :
    x ∈ ssetAdd l x := by
  by_cases h : x ∈ l <;> simp [ssetAdd, h]

theorem ssetAdd_idem (l : List String) (x : String) :
    ssetAdd (ssetAdd l x) x
      = ssetAdd l x := by
  have h := mem_ssetAdd_self l x
  rw [ssetAdd, if_pos h]

/-- Forward evaluation of the record branch of
`RailzAiServiceSlicer.update_cursor` when everything is well-shaped. -/
theorem svc_update_cursor_record_eq (cursor : List (String × RailzAiServiceSlicer.SVal))
    (stream_slice r : JObj) (b s : String) (l : List String)
    (hb : getStr stream_slice "businessName" = some b)
    (hs : getStr stream_slice "serviceName" = some s)
    (hl : getVal (if hasKey cursor b = true then cursor
            else setVal cursor b (RailzAiServiceSlicer.SVal.sset [])) b
          = some (RailzAiServiceSlicer.SVal.sset l)) :
    RailzAiServiceSlicer.update_cursor cursor stream_slice (some r)
      = some (setVal (if hasKey cursor b = true then cursor
            else setVal cursor b (RailzAiServiceSlicer.SVal.sset [])) b
          (RailzAiServiceSlicer.SVal.sset (ssetAdd l s))) := by
  simp only [RailzAiServiceSlicer.update_cursor, hb, Option.bind_eq_bind, Option.some_bind, hl,
    hs, Option.pure_def]

/-- Inversion of a successful record-branch call of
`RailzAiServiceSlicer.update_cursor`. -/
theorem svc_update_cursor_record_inv (cursor c' : List (String × RailzAiServiceSlicer.SVal))
    (stream_slice r : JObj)
    (h : RailzAiServiceSlicer.update_cursor cursor stream_slice (some r) = some c') :
    ∃ b s l,
      getStr stream_slice "businessName" = some b ∧
      getStr stream_slice "serviceName" = some s ∧
      getVal (if hasKey cursor b = true then cursor
          else setVal cursor b (RailzAiServiceSlicer.SVal.sset [])) b
        = some (RailzAiServiceSlicer.SVal.sset l) ∧
      c' = setVal (if hasKey cursor b = true then cursor
          else setVal cursor b (RailzAiServiceSlicer.SVal.sset [])) b
        (RailzAiServiceSlicer.SVal.sset (ssetAdd l s)) := by
  simp only [RailzAiServiceSlicer.update_cursor, Option.bind_eq_bind] at h
  cases hb : getStr stream_slice "businessName" with
  | none => rw [hb] at h; simp at h
  | some b =>
      rw [hb] at h
      simp only [Option.some_bind] at h
      cases hl : getVal (if hasKey cursor b = true then cursor
          else setVal cursor b (RailzAiServiceSlicer.SVal.sset [])) b with
      | none => rw [hl] at h; simp at h
      | some sv =>
          rw [hl] at h
          cases sv with
          | js j => simp at h
          | sset l =>
              simp only [Option.some_bind] at h
              cases hs : getStr stream_slice "serviceName" with
              | none => rw [hs] at h; simp at h
              | some s =>
                  rw [hs] at h
                  simp only [Option.some_bind, Option.pure_def, Option.some.injEq] at h
                  exact ⟨b, s, l, rfl, rfl, hl, h.symm⟩

/-- C10: the record branch of `RailzAiServiceSlicer.update_cursor` never reads
the record: from the same starting cursor state, any two present records give
identical resulting states, and repeating the call with the same slice leaves
the state unchanged (idempotent set add). -/
theorem C10_svc_update_cursor_record_blind_idempotent :
    (∀ (cursor : List (String × RailzAiServiceSlicer.SVal)) (stream_slice : JObj)
        (r1 r2 : JObj),
      RailzAiServiceSlicer.update_cursor cursor stream_slice (some r1)
        = RailzAiServiceSlicer.update_cursor cursor stream_slice (some r2)) ∧
    (∀ (cursor c' : List (String × RailzAiServiceSlicer.SVal)) (stream_slice : JObj)
        (r1 r2 : JObj),
      RailzAiServiceSlicer.update_cursor cursor stream_slice (some r1) = some c' →
      RailzAiServiceSlicer.update_cursor c' stream_slice (some r2) = some c') := by
  constructor
  · intro cursor stream_slice r1 r2
    rfl
  · intro cursor c' stream_slice r1 r2 h
    obtain ⟨b, s, l, hb, hs, hl, hc⟩ := svc_update_cursor_record_inv cursor c' stream_slice r1 h
    have hget : getVal c' b = some (RailzAiServiceSlicer.SVal.sset (ssetAdd l s)) := by
      rw [hc]
      exact getVal_setVal_self _ _ _
    have hk' : hasKey c' b = true := by
      rw [hasKey, hget]
      rfl
    have hl' : getVal (if hasKey c' b = true then c'
        else setVal c' b (RailzAiServiceSlicer.SVal.sset [])) b
        = some (RailzAiServiceSlicer.SVal.sset (ssetAdd l s)) := by
      rw [if_pos hk']
      exact hget
    rw [svc_update_cursor_record_eq c' stream_slice r2 b s (ssetAdd l s) hb hs hl']
    rw [if_pos hk', ssetAdd_idem, setVal_eq_self _ _ _ hget]

/-! ### C6 -/

/-- C6: the guard in `RailzNestedExtractor.__post_init__` builds the
`ValueError` for an empty nested-fields path but never raises it (the `raise`
keyword is missing), so construction with `nested_fields = []` succeeds and
returns an extractor configuration instead of erroring. -/
theorem C6_post_init_empty_nested_fields_does_not_raise :
    RailzNestedExtractor.post_init [] ["owner"] none
      = Except.ok { nested_fields := [], propagate_fields := ["owner"], prefix_key := none } :=
  rfl

/-! ### C4 and C3: retriever failure isolation -/

theorem mem_ssetAdd_of_mem (l : List String) (x y : String) (h : x ∈ l) :
    x ∈ ssetAdd l y := by
  by_cases hy : y ∈ l <;> simp [ssetAdd, hy, h]

theorem read_records_short_circuit (failed : List String) (slice : SvcSlice)
    (u : RailzAiServiceRetriever.UnderlyingRead) (h : slice.serviceName ∈ failed) :
    RailzAiServiceRetriever.read_records failed slice u
      = { records := [], failedServices := failed, raised := none,
          underlyingCalled := false, warnings := [] } := by
  simp [RailzAiServiceRetriever.read_records, h]

theorem mem_read_records_failed (failed : List String) (slice : SvcSlice)
    (u : RailzAiServiceRetriever.UnderlyingRead) (x : String) (h : x ∈ failed) :
    x ∈ (RailzAiServiceRetriever.read_records failed slice u).failedServices := by
  obtain ⟨records, oc⟩ := u
  by_cases hm : slice.serviceName ∈ failed <;>
    cases oc <;>
      simp [RailzAiServiceRetriever.read_records, hm, h, mem_ssetAdd_of_mem]

theorem service_mem_after_readException (failed : List String) (slice : SvcSlice)
    (records : List Json) (msg : String) :
    slice.serviceName ∈ (RailzAiServiceRetriever.read_records failed slice
      ⟨records, RailzAiServiceRetriever.Outcome.readException msg⟩).failedServices := by
  by_cases hm : slice.serviceName ∈ failed
  · simp [RailzAiServiceRetriever.read_records, hm]
  · simp [RailzAiServiceRetriever.read_records, hm, mem_ssetAdd_self]

theorem failedAfter_append (f0 : List String)
    (a b : List (SvcSlice × RailzAiServiceRetriever.UnderlyingRead)) :
    RailzAiServiceRetriever.failedAfter f0 (a ++ b)
      = RailzAiServiceRetriever.failedAfter (RailzAiServiceRetriever.failedAfter f0 a) b := by
  simp [RailzAiServiceRetriever.failedAfter, List.foldl_append]

theorem mem_failedAfter_of_mem (f : List String)
    (l : List (SvcSlice × RailzAiServiceRetriever.UnderlyingRead)) (x : String)
    (h : x ∈ f) : x ∈ RailzAiServiceRetriever.failedAfter f l := by
  induction l generalizing f with
  | nil => exact h
  | cons su rest ih =>
      exact ih _ (mem_read_records_failed f su.1 su.2 x h)

theorem runReads_getElem? (f0 : List String)
    (steps : List (SvcSlice × RailzAiServiceRetriever.UnderlyingRead)) (j : Nat) :
    (RailzAiServiceRetriever.runReads f0 steps)[j]? = (steps[j]?).map
      (fun su => RailzAiServiceRetriever.read_records
        (RailzAiServiceRetriever.failedAfter f0 (steps.take j)) su.1 su.2) := by
  induction steps generalizing f0 j with
  | nil => simp [RailzAiServiceRetriever.runReads]
  | cons su rest ih =>
      obtain ⟨slice, u⟩ := su
      cases j with
      | zero => simp [RailzAiServiceRetriever.runReads, RailzAiServiceRetriever.failedAfter]
      | succ j =>
          simp only [RailzAiServiceRetriever.runReads, List.getElem?_cons_succ, ih,
            List.take_succ_cons]
          rfl

/-- C4: `RailzAiServiceRetriever.read_records` catches exactly the recoverable
`ReadException` from the underlying read: on it the slice's service name joins
the failed-service set, a warning is logged, no further records are yielded
and nothing is re-raised; an exception of any other kind propagates unchanged
to the caller, leaving the failed set and the log alone. -/
theorem C4_read_records_catches_exactly_read_exception :
    ∀ (failed : List String) (slice : SvcSlice) (records : List Json) (msg : String),
      slice.serviceName ∉ failed →
      RailzAiServiceRetriever.read_records failed slice
          ⟨records, RailzAiServiceRetriever.Outcome.readException msg⟩
        = { records := records, failedServices := ssetAdd failed slice.serviceName,
            raised := none, underlyingCalled := true, warnings := [msg] } ∧
      RailzAiServiceRetriever.read_records failed slice
          ⟨records, RailzAiServiceRetriever.Outcome.otherException msg⟩
        = { records := records, failedServices := failed, raised := some msg,
            underlyingCalled := true, warnings := [] } := by
  intro failed slice records msg h
  constructor <;> simp [RailzAiServiceRetriever.read_records, h]

theorem C4_read_records_catches_exactly_read_exception_witness :
    RailzAiServiceRetriever.read_records [] ⟨"B", "S"⟩
        ⟨[], RailzAiServiceRetriever.Outcome.readException "boom"⟩
      = { records := [], failedServices := ["S"], raised := none,
          underlyingCalled := true, warnings := ["boom"] } :=
  (C4_read_records_catches_exactly_read_exception [] ⟨"B", "S"⟩ [] "boom"
    (by simp)).1

/-- C3: in any run, once a service S has failed with a `ReadException` at step
i, every later step j for a slice of service S yields zero records without
invoking the underlying read; the failed-service set only grows along the run;
and any step's observable behaviour depends on the failed set only through
membership of its own service name. -/
theorem C3_failed_service_short_circuits_run :
    (∀ (f0 : List String) (steps : List (SvcSlice × RailzAiServiceRetriever.UnderlyingRead))
        (i j : Nat) (si sj : SvcSlice × RailzAiServiceRetriever.UnderlyingRead) (msg : String),
      i < j → steps[i]? = some si → steps[j]? = some sj →
      si.2.outcome = RailzAiServiceRetriever.Outcome.readException msg →
      sj.1.serviceName = si.1.serviceName →
      (RailzAiServiceRetriever.runReads f0 steps)[j]? = some
        { records := [], failedServices := RailzAiServiceRetriever.failedAfter f0 (steps.take j),
          raised := none, underlyingCalled := false, warnings := [] }) ∧
    (∀ (f0 : List String) (steps : List (SvcSlice × RailzAiServiceRetriever.UnderlyingRead))
        (i j : Nat) (x : String), i ≤ j →
      x ∈ RailzAiServiceRetriever.failedAfter f0 (steps.take i) →
      x ∈ RailzAiServiceRetriever.failedAfter f0 (steps.take j)) ∧
    (∀ (failed failed' : List String) (slice : SvcSlice)
        (u : RailzAiServiceRetriever.UnderlyingRead),
      (slice.serviceName ∈ failed ↔ slice.serviceName ∈ failed') →
      (RailzAiServiceRetriever.read_records failed slice u).records
          = (RailzAiServiceRetriever.read_records failed' slice u).records ∧
        (RailzAiServiceRetriever.read_records failed slice u).raised
          = (RailzAiServiceRetriever.read_records failed' slice u).raised ∧
        (RailzAiServiceRetriever.read_records failed slice u).underlyingCalled
          = (RailzAiServiceRetriever.read_records failed' slice u).underlyingCalled ∧
        (RailzAiServiceRetriever.read_records failed slice u).warnings
          = (RailzAiServiceRetriever.read_records failed' slice u).warnings) := by
  have hmono : ∀ (f0 : List String)
      (steps : List (SvcSlice × RailzAiServiceRetriever.UnderlyingRead)) (i j : Nat) (x : String),
      i ≤ j →
      x ∈ RailzAiServiceRetriever.failedAfter f0 (steps.take i) →
      x ∈ RailzAiServiceRetriever.failedAfter f0 (steps.take j) := by
    intro f0 steps i j x hij hx
    have hsplit : steps.take j = steps.take i ++ (steps.drop i).take (j - i) := by
      rw [← List.take_add]
      congr 1
      omega
    rw [hsplit, failedAfter_append]
    exact mem_failedAfter_of_mem _ _ _ hx
  refine ⟨?_, hmono, ?_⟩
  · intro f0 steps i j si sj msg hij hsi hsj hoc hsvc
    have hi : i < steps.length := by
      by_contra hlen
      rw [List.getElem?_eq_none (by omega)] at hsi
      exact Option.noConfusion hsi
    have hentry : si.1.serviceName ∈
        RailzAiServiceRetriever.failedAfter f0 (steps.take (i + 1)) := by
      have htake : steps.take (i + 1) = steps.take i ++ [si] := by
        rw [List.take_succ]
        congr 1
        rw [hsi]
        rfl
      rw [htake, failedAfter_append]
      show si.1.serviceName ∈ (RailzAiServiceRetriever.read_records
        (RailzAiServiceRetriever.failedAfter f0 (steps.take i)) si.1 si.2).failedServices
      obtain ⟨slice, u⟩ := si
      obtain ⟨records, oc⟩ := u
      cases hoc
      exact service_mem_after_readException _ _ _ _
    have hmem : sj.1.serviceName ∈
        RailzAiServiceRetriever.failedAfter f0 (steps.take j) := by
      rw [hsvc]
      exact hmono f0 steps (i + 1) j si.1.serviceName (by omega) hentry
    rw [runReads_getElem?, hsj]
    rw [Option.map_some']
    rw [read_records_short_circuit _ _ _ hmem]
  · intro failed failed' slice u hiff
    obtain ⟨records, oc⟩ := u
    by_cases hm : slice.serviceName ∈ failed
    · have hm' : slice.serviceName ∈ failed' := hiff.mp hm
      cases oc <;> simp [RailzAiServiceRetriever.read_records, hm, hm']
    · have hm' : slice.serviceName ∉ failed' := fun hh => hm (hiff.mpr hh)
      cases oc <;> simp [RailzAiServiceRetriever.read_records, hm, hm']

theorem C3_failed_service_short_circuits_run_witness :
    (RailzAiServiceRetriever.runReads []
        [(⟨"B", "S"⟩, ⟨[Json.null], RailzAiServiceRetriever.Outcome.readException "boom"⟩),
         (⟨"B2", "S"⟩, ⟨[Json.null], RailzAiServiceRetriever.Outcome.ok⟩)])[1]? = some
      { records := [],
        failedServices := RailzAiServiceRetriever.failedAfter []
          ([(⟨"B", "S"⟩, ⟨[Json.null], RailzAiServiceRetriever.Outcome.readException "boom"⟩),
            (⟨"B2", "S"⟩, ⟨[Json.null], RailzAiServiceRetriever.Outcome.ok⟩)].take 1),
        raised := none, underlyingCalled := false, warnings := [] } :=
  C3_failed_service_short_circuits_run.1 []
    [(⟨"B", "S"⟩, ⟨[Json.null], RailzAiServiceRetriever.Outcome.readException "boom"⟩),
     (⟨"B2", "S"⟩, ⟨[Json.null], RailzAiServiceRetriever.Outcome.ok⟩)]
    0 1 _ _ "boom" (by omega) rfl rfl rfl rfl

theorem C10_svc_update_cursor_record_blind_idempotent_witness :
    RailzAiServiceSlicer.update_cursor
        [("B", RailzAiServiceSlicer.SVal.sset ["S"])]
        [("businessName", Json.str "B"), ("serviceName", Json.str "S")] (some []) =
      some [("B", RailzAiServiceSlicer.SVal.sset ["S"])] :=
  C10_svc_update_cursor_record_blind_idempotent.2 []
    [("B", RailzAiServiceSlicer.SVal.sset ["S"])]
    [("businessName", Json.str "B"), ("serviceName", Json.str "S")] [] [] (by rfl)

/-! ### C8: report selectors -/

theorem getVal_filter_contains (meta : JObj) (fields : List String) (k : String) :
    getVal (meta.filter (fun p => fields.contains p.1)) k
      = if fields.contains k = true then getVal meta k else none := by
  induction meta with
  | nil =>
      by_cases hfk : fields.contains k = true
      · rw [if_pos hfk]
        rfl
      · rw [if_neg hfk]
        rfl
  | cons p rest ih =>
      obtain ⟨k₁, v⟩ := p
      rw [List.filter_cons]
      by_cases hf : fields.contains k₁ = true
      · rw [if_pos hf]
        by_cases hk : k₁ = k
        · subst hk
          rw [getVal, if_pos rfl, if_pos hf, getVal, if_pos rfl]
        · rw [getVal, if_neg hk, ih]
          by_cases hfk : fields.contains k = true
          · rw [if_pos hfk, if_pos hfk, getVal, if_neg hk]
          · rw [if_neg hfk, if_neg hfk]
      · rw [if_neg hf, ih]
        by_cases hk : k₁ = k
        · subst hk
          rw [if_neg hf, if_neg hf]
        · by_cases hfk : fields.contains k = true
          · rw [if_pos hfk, if_pos hfk, getVal, if_neg hk]
          · rw [if_neg hfk, if_neg hfk]

/-- Keys of a filtered association list stay duplicate-free. -/
theorem nodup_keys_filter (meta : JObj) (fields : List String)
    (h : (meta.map Prod.fst).Nodup) :
    ((meta.filter (fun p => fields.contains p.1)).map Prod.fst).Nodup := by
  induction meta with
  | nil => simp
  | cons p rest ih =>
      rw [List.map_cons, List.nodup_cons] at h
      by_cases hf : fields.contains p.1 = true
      · rw [List.filter_cons, if_pos hf, List.map_cons, List.nodup_cons]
        refine ⟨fun hmem => h.1 ?_, ih h.2⟩
        obtain ⟨q, hq, hfst⟩ := List.mem_map.mp hmem
        exact List.mem_map.mpr ⟨q, List.mem_of_mem_filter hq, hfst⟩
      · rw [List.filter_cons, if_neg hf]
        exact ih h.2

/-- C8: the selector turns a raw `{data, meta}` record into flat records: a
single `data` object behaves exactly like the one-element list holding it;
each output record is the data object shallow-merged with exactly those meta
bindings whose key is among the effective meta fields, the meta value winning
on a key collision; the base selector defaults to `{reportId}` and the
incremental selector to `{reportId, startDate, endDate}`; and the concrete
`{"data":[{"a":1}],"meta":{"reportId":"r1","extra":"z"}}` example selects
exactly `[{"a":1,"reportId":"r1"}]`. -/
theorem C8_selector_merges_meta_fields :
    (∀ (metaFields : Option (List String)) (defaults : List String) (record : JObj)
        (d : JObj),
      getVal record "data" = some (Json.obj d) →
      RailzAiReportsSelector.select_record metaFields defaults record
        = RailzAiReportsSelector.select_record metaFields defaults
            (setVal record "data" (Json.arr [Json.obj d]))) ∧
    (∀ (fields : List String) (meta d : JObj) (k : String),
      (meta.map Prod.fst).Nodup →
      RailzAiReportsSelector.select_one fields meta (Json.obj d)
        = some (updateDict d (meta.filter (fun p => fields.contains p.1))) ∧
      getVal (updateDict d (meta.filter (fun p => fields.contains p.1))) k
        = (if fields.contains k = true then
            match getVal meta k with
            | some v => some v
            | none => getVal d k
          else getVal d k)) ∧
    RailzAiReportsSelector.default_meta_fields = ["reportId"] ∧
    RailzAiIncrementalReportsSelector.incremental_default_meta_fields
      = ["reportId", "startDate", "endDate"] ∧
    RailzAiReportsSelector.select_records none RailzAiReportsSelector.default_meta_fields
        [[("data", Json.arr [Json.obj [("a", Json.num 1)]]),
          ("meta", Json.obj [("reportId", Json.str "r1"), ("extra", Json.str "z")])]]
      = some [[("a", Json.num 1), ("reportId", Json.str "r1")]] ∧
    RailzAiReportsSelector.select_records none
        RailzAiIncrementalReportsSelector.incremental_default_meta_fields
        [[("data", Json.obj [("a", Json.num 1)]),
          ("meta", Json.obj [("reportId", Json.str "r1"), ("startDate", Json.str "d0"),
            ("endDate", Json.str "d9"), ("extra", Json.str "z")])]]
      = some [[("a", Json.num 1), ("reportId", Json.str "r1"), ("startDate", Json.str "d0"),
          ("endDate", Json.str "d9")]] := by
  refine ⟨?_, ?_, rfl, rfl, rfl, rfl⟩
  · intro metaFields defaults record d hd
    have hmeta : getVal (setVal record "data" (Json.arr [Json.obj d])) "meta"
        = getVal record "meta" :=
      getVal_setVal_ne record "data" "meta" _ (by decide)
    rw [RailzAiReportsSelector.select_record, RailzAiReportsSelector.select_record,
      hd, getVal_setVal_self, getObj, getObj, hmeta]
    rfl
  · intro fields meta d k hnodup
    refine ⟨rfl, ?_⟩
    rw [getVal_updateDict _ _ _ (nodup_keys_filter meta fields hnodup),
      getVal_filter_contains]
    by_cases hf : fields.contains k = true
    · rw [if_pos hf, if_pos hf]
    · rw [if_neg hf, if_neg hf]

theorem C8_selector_merges_meta_fields_witness :
    RailzAiReportsSelector.select_record none ["reportId"]
        [("data", Json.obj [("a", Json.num 1)]),
         ("meta", Json.obj [("reportId", Json.str "r1")])]
      = RailzAiReportsSelector.select_record none ["reportId"]
          (setVal [("data", Json.obj [("a", Json.num 1)]),
            ("meta", Json.obj [("reportId", Json.str "r1")])]
            "data" (Json.arr [Json.obj [("a", Json.num 1)]])) ∧
    getVal (updateDict [("a", Json.num 1)]
        ([("reportId", Json.str "r1")].filter
          (fun p => (["reportId"] : List String).contains p.1))) "reportId"
      = some (Json.str "r1") := by
  constructor
  · exact C8_selector_merges_meta_fields.1 none ["reportId"] _ [("a", Json.num 1)] rfl
  · have h := (C8_selector_merges_meta_fields.2.1 ["reportId"]
      [("reportId", Json.str "r1")] [("a", Json.num 1)] "reportId" (by simp)).2
    simpa using h

/-! ### C9: token cache -/

/-- C9 counterexample: with the lifetime configured as `PT90000S` (90000
seconds, just over one day), a cached non-empty token obtained at time 0 is
refetched at time 5000, although 5000 seconds is well inside the configured
lifetime: `check_token` compares the elapsed time against
`timedelta.seconds` (here 3600), not against the lifetime in seconds. -/
theorem C9_lifetime_seconds_counterexample :
    (ShortLivedTokenAuthenticator.parse_timedelta (some 90000)).totalSeconds = 90000 ∧
    ((5000 : Int) - 0 < (90000 : Int)) ∧
    (ShortLivedTokenAuthenticator.check_token
        (ShortLivedTokenAuthenticator.parse_timedelta (some 90000)) "access_token"
        [("access_token", "tok2")]
        { token := some "tok1", timestamp := some 0 } 5000).fetched = true := by
  refine ⟨rfl, by decide, rfl⟩

/-- C9 (amended): `check_token` fetches iff the cached token is Python-falsy
or the elapsed time is at least the seconds-within-day component of the parsed
lifetime (`timedelta.seconds`, which equals the configured lifetime in seconds
for sub-day durations); from an empty cache the first access fetches and
caches the token, a second access strictly inside that window does not fetch
and leaves the cache unchanged, an access at or past the window fetches again;
and a missing/empty lifetime parses to zero so every access (with a
non-decreasing clock) fetches. -/
theorem C9_token_cache_fetch_behaviour :
    (∀ (lifetime : ShortLivedTokenAuthenticator.Timedelta) (tokenKey : String)
        (response : List (String × String)) (st : ShortLivedTokenAuthenticator.AuthState)
        (now : Int),
      (ShortLivedTokenAuthenticator.check_token lifetime tokenKey response st now).fetched
        = (ShortLivedTokenAuthenticator.tokenFalsy st.token
            || decide (now - st.timestamp.getD 0 ≥ (lifetime.seconds : Int)))) ∧
    (∀ (lifetime : ShortLivedTokenAuthenticator.Timedelta) (tokenKey : String)
        (response : List (String × String)) (t0 t1 : Int) (tok : String),
      getVal response tokenKey = some tok → tok ≠ "" →
      ShortLivedTokenAuthenticator.check_token lifetime tokenKey response ⟨none, none⟩ t0
        = { state := ⟨some tok, some t0⟩, fetched := true, raised := none } ∧
      (t1 - t0 < (lifetime.seconds : Int) →
        ShortLivedTokenAuthenticator.check_token lifetime tokenKey response
            ⟨some tok, some t0⟩ t1
          = { state := ⟨some tok, some t0⟩, fetched := false, raised := none }) ∧
      ((lifetime.seconds : Int) ≤ t1 - t0 →
        ShortLivedTokenAuthenticator.check_token lifetime tokenKey response
            ⟨some tok, some t0⟩ t1
          = { state := ⟨some tok, some t1⟩, fetched := true, raised := none })) ∧
    ShortLivedTokenAuthenticator.parse_timedelta none = { days := 0, seconds := 0 } ∧
    (∀ (tokenKey : String) (response : List (String × String))
        (st : ShortLivedTokenAuthenticator.AuthState) (now : Int),
      st.timestamp.getD 0 ≤ now →
      (ShortLivedTokenAuthenticator.check_token
          (ShortLivedTokenAuthenticator.parse_timedelta none) tokenKey response st
          now).fetched = true) := by
  have hfetched : ∀ (lifetime : ShortLivedTokenAuthenticator.Timedelta) (tokenKey : String)
      (response : List (String × String)) (st : ShortLivedTokenAuthenticator.AuthState)
      (now : Int),
      (ShortLivedTokenAuthenticator.check_token lifetime tokenKey response st now).fetched
        = (ShortLivedTokenAuthenticator.tokenFalsy st.token
            || decide (now - st.timestamp.getD 0 ≥ (lifetime.seconds : Int))) := by
    intro lifetime tokenKey response st now
    rw [ShortLivedTokenAuthenticator.check_token]
    by_cases hc : (ShortLivedTokenAuthenticator.tokenFalsy st.token
        || decide (now - st.timestamp.getD 0 ≥ (lifetime.seconds : Int))) = true
    · rw [if_pos hc, hc]
      cases getVal response tokenKey <;> rfl
    · rw [if_neg hc]
      simp only [Bool.not_eq_true] at hc
      rw [hc]
  refine ⟨hfetched, ?_, rfl, ?_⟩
  · intro lifetime tokenKey response t0 t1 tok hresp htok
    have hfalsy : ShortLivedTokenAuthenticator.tokenFalsy (some tok) = false := by
      simp [ShortLivedTokenAuthenticator.tokenFalsy, htok]
    refine ⟨?_, ?_, ?_⟩
    · rw [ShortLivedTokenAuthenticator.check_token,
        if_pos (by simp [ShortLivedTokenAuthenticator.tokenFalsy]), hresp]
    · intro hwin
      rw [ShortLivedTokenAuthenticator.check_token, if_neg]
      rw [hfalsy, Bool.false_or]
      simp only [decide_eq_true_eq]
      show ¬ ((lifetime.seconds : Int) ≤ t1 - (some t0).getD 0)
      simpa using not_le.mpr hwin
    · intro hexp
      rw [ShortLivedTokenAuthenticator.check_token, if_pos, hresp]
      rw [hfalsy, Bool.false_or]
      simp only [decide_eq_true_eq]
      simpa using hexp
  · intro tokenKey response st now hts
    rw [hfetched]
    cases htf : ShortLivedTokenAuthenticator.tokenFalsy st.token
    · rw [Bool.false_or]
      simp only [decide_eq_true_eq]
      show now - st.timestamp.getD 0 ≥
        (((ShortLivedTokenAuthenticator.parse_timedelta none).seconds : Nat) : Int)
      simp only [ShortLivedTokenAuthenticator.parse_timedelta]
      omega
    · rw [Bool.true_or]

theorem C9_token_cache_fetch_behaviour_witness :
    ShortLivedTokenAuthenticator.check_token ⟨0, 3600⟩ "access_token"
        [("access_token", "tok")] ⟨some "tok", some 0⟩ 100
      = { state := ⟨some "tok", some 0⟩, fetched := false, raised := none } ∧
    ShortLivedTokenAuthenticator.check_token ⟨0, 3600⟩ "access_token"
        [("access_token", "tok")] ⟨some "tok", some 0⟩ 3600
      = { state := ⟨some "tok", some 3600⟩, fetched := true, raised := none } ∧
    (ShortLivedTokenAuthenticator.check_token
        (ShortLivedTokenAuthenticator.parse_timedelta none) "access_token"
        [("access_token", "tok")] ⟨some "tok", some 5⟩ 5).fetched = true := by
  refine ⟨?_, ?_, ?_⟩
  · exact ((C9_token_cache_fetch_behaviour.2.1 ⟨0, 3600⟩ "access_token"
      [("access_token", "tok")] 0 100 "tok" rfl (by decide)).2.1 (by decide))
  · exact ((C9_token_cache_fetch_behaviour.2.1 ⟨0, 3600⟩ "access_token"
      [("access_token", "tok")] 0 3600 "tok" rfl (by decide)).2.2 (by decide))
  · exact C9_token_cache_fetch_behaviour.2.2.2 "access_token"
      [("access_token", "tok")] ⟨some "tok", some 5⟩ 5 (by decide)

/-! ### C5: absent-record branch of the incremental slicer -/

/-- C5 counterexample: calling the incremental `update_cursor` with an absent
record does not write the slice's window end under
`state[businessName][serviceName][cursorField]`; it dict-merges the slice
mapping itself into the cursor at top level, so after the call on an empty
cursor the per-(business, service) entry is still absent. -/
theorem C5_bootstrap_counterexample :
    RailzAiIncrementalServiceSlicer.update_cursor "updatedAt" []
        [("businessName", Json.str "B"), ("serviceName", Json.str "S"),
         ("start_date", Json.str "2023-01-01"), ("end_date", Json.str "2023-01-31")] none
      = some [("businessName", Json.str "B"), ("serviceName", Json.str "S"),
         ("start_date", Json.str "2023-01-01"), ("end_date", Json.str "2023-01-31")] ∧
    RailzAiIncrementalServiceSlicer.cursorLookup
        [("businessName", Json.str "B"), ("serviceName", Json.str "S"),
         ("start_date", Json.str "2023-01-01"), ("end_date", Json.str "2023-01-31")]
        "B" "S" "updatedAt" ≠ some "2023-01-31" := by
  constructor
  · rfl
  · intro h
    exact Option.noConfusion h

/-- C5 (amended): with an absent record, the incremental `update_cursor`
shallow-merges the given mapping's top-level bindings into the cursor dict
(Python `dict.update`, the path used to restore persisted state): bindings of
the given mapping win and every other key keeps its prior value; no nested
per-(business, service) window-end entry is written. -/
theorem C5_absent_record_merges_mapping :
    (∀ (cursorField : String) (cursor stream_slice : JObj),
      RailzAiIncrementalServiceSlicer.update_cursor cursorField cursor stream_slice none
        = some (updateDict cursor stream_slice)) ∧
    (∀ (cursor stream_slice : JObj) (k : String),
      (stream_slice.map Prod.fst).Nodup →
      getVal (updateDict cursor stream_slice) k
        = match getVal stream_slice k with
          | some v => some v
          | none => getVal cursor k) :=
  ⟨fun _ _ _ => rfl, fun c e k h => getVal_updateDict c e k h⟩

theorem C5_absent_record_merges_mapping_witness :
    getVal (updateDict [("x", Json.num 1)] [("a", Json.null)]) "a" = some Json.null := by
  have h := C5_absent_record_merges_mapping.2 [("x", Json.num 1)] [("a", Json.null)] "a"
    (by simp)
  simpa using h

/-! ### C1: incremental cursor merge is monotone -/

theorem getObj_setVal_obj (d : JObj) (k : String) (o : JObj) :
    getObj (setVal d k (Json.obj o)) k = some o := by
  rw [getObj, getVal_setVal_self]
  rfl

theorem getStr_setVal_str (d : JObj) (k : String) (v : String) :
    getStr (setVal d k (Json.str v)) k = some v := by
  rw [getStr, getVal_setVal_self]
  rfl

theorem ensure_obj_of_none (d : JObj) (k : String) (h : getVal d k = none) :
    (if hasKey d k = true then d else setVal d k (Json.obj []))
      = setVal d k (Json.obj []) := by
  rw [hasKey, h]
  rfl

theorem ensure_obj_of_some (d : JObj) (k : String) (j : Json) (h : getVal d k = some j) :
    (if hasKey d k = true then d else setVal d k (Json.obj [])) = d := by
  rw [hasKey, h]
  rfl

/-- Reading back a nested two-level write. -/
theorem cursorLookup_setVal_chain (cursor bObj service : JObj) (b s f : String) :
    RailzAiIncrementalServiceSlicer.cursorLookup
        (setVal cursor b (Json.obj (setVal bObj s (Json.obj service)))) b s f
      = getStr service f := by
  simp [RailzAiIncrementalServiceSlicer.cursorLookup, getObj_setVal_obj]

/-- C1: the record branch of the incremental `update_cursor` stores
`max(V, R)` for the slice's (business, service) pair — the record's value `R`
when nothing was stored — so the stored value never decreases, and the
intermediate mapping levels for the business and the service exist after the
call. -/
theorem C1_inc_update_cursor_monotone :
    ∀ (cursorField : String) (cursor stream_slice record : JObj) (b s r : String),
      getStr stream_slice "businessName" = some b →
      getStr stream_slice "serviceName" = some s →
      getStr record cursorField = some r →
      RailzAiIncrementalServiceSlicer.shapeOK cursor b s cursorField →
      ∃ result,
        RailzAiIncrementalServiceSlicer.update_cursor cursorField cursor stream_slice
            (some record) = some result ∧
        RailzAiIncrementalServiceSlicer.cursorLookup result b s cursorField
          = some (match RailzAiIncrementalServiceSlicer.cursorLookup cursor b s cursorField with
              | some v => max v r
              | none => r) ∧
        (∀ v, RailzAiIncrementalServiceSlicer.cursorLookup cursor b s cursorField = some v →
          ∃ w, RailzAiIncrementalServiceSlicer.cursorLookup result b s cursorField = some w ∧
            v ≤ w) ∧
        (∃ bObj, getObj result b = some bObj ∧
          ∃ service, getObj bObj s = some service) := by
  intro cursorField cursor stream_slice record b s r hb hs hr hshape
  simp only [RailzAiIncrementalServiceSlicer.shapeOK] at hshape
  cases hB : getVal cursor b with
  | none =>
      have hc1 := ensure_obj_of_none cursor b hB
      have h2 := ensure_obj_of_none ([] : JObj) s rfl
      have hlcur : RailzAiIncrementalServiceSlicer.cursorLookup cursor b s cursorField
          = none := by
        simp [RailzAiIncrementalServiceSlicer.cursorLookup, getObj, hB]
      refine ⟨setVal (setVal cursor b (Json.obj [])) b
          (Json.obj (setVal (setVal [] s (Json.obj [])) s
            (Json.obj (setVal [] cursorField (Json.str r))))), ?_, ?_, ?_, ?_⟩
      · simp only [RailzAiIncrementalServiceSlicer.update_cursor, hb, hs, hr,
          Option.bind_eq_bind, Option.some_bind, hc1, h2, getObj_setVal_obj, getVal,
          Option.pure_def]
      · rw [cursorLookup_setVal_chain, getStr_setVal_str, hlcur]
      · intro v hv
        rw [hlcur] at hv
        exact Option.noConfusion hv
      · exact ⟨_, getObj_setVal_obj _ _ _, _, getObj_setVal_obj _ _ _⟩
  | some j =>
      rw [hB] at hshape
      cases j with
      | obj bo =>
          have hc1 := ensure_obj_of_some cursor b (Json.obj bo) hB
          have hgetB : getObj cursor b = some bo := by rw [getObj, hB]; rfl
          have hshape2 : (match getVal bo s with
              | none => True
              | some (Json.obj service) =>
                  match getVal service cursorField with
                  | none => True
                  | some (Json.str _) => True
                  | some _ => False
              | some _ => False : Prop) := hshape
          clear hshape
          cases hS : getVal bo s with
          | none =>
              have h2 := ensure_obj_of_none bo s hS
              have hlcur : RailzAiIncrementalServiceSlicer.cursorLookup cursor b s cursorField
                  = none := by
                simp [RailzAiIncrementalServiceSlicer.cursorLookup, getObj, hB, asObj, hS]
              refine ⟨setVal cursor b
                  (Json.obj (setVal (setVal bo s (Json.obj [])) s
                    (Json.obj (setVal [] cursorField (Json.str r))))), ?_, ?_, ?_, ?_⟩
              · simp only [RailzAiIncrementalServiceSlicer.update_cursor, hb, hs, hr,
                  Option.bind_eq_bind, Option.some_bind, hc1, hgetB, h2, getObj_setVal_obj,
                  getVal, Option.pure_def]
              · rw [cursorLookup_setVal_chain, getStr_setVal_str, hlcur]
              · intro v hv
                rw [hlcur] at hv
                exact Option.noConfusion hv
              · exact ⟨_, getObj_setVal_obj _ _ _, _, getObj_setVal_obj _ _ _⟩
          | some jv =>
              rw [hS] at hshape2
              cases jv with
              | obj so =>
                  have h2 := ensure_obj_of_some bo s (Json.obj so) hS
                  have hgetS : getObj bo s = some so := by rw [getObj, hS]; rfl
                  have hshape3 : (match getVal so cursorField with
                      | none => True
                      | some (Json.str _) => True
                      | some _ => False : Prop) := hshape2
                  clear hshape2
                  cases hF : getVal so cursorField with
                  | none =>
                      have hlcur : RailzAiIncrementalServiceSlicer.cursorLookup
                          cursor b s cursorField = none := by
                        simp [RailzAiIncrementalServiceSlicer.cursorLookup, getObj, hB, asObj,
                          hS, getStr, hF]
                      refine ⟨setVal cursor b
                          (Json.obj (setVal bo s
                            (Json.obj (setVal so cursorField (Json.str r))))), ?_, ?_, ?_, ?_⟩
                      · simp only [RailzAiIncrementalServiceSlicer.update_cursor, hb, hs, hr,
                          Option.bind_eq_bind, Option.some_bind, hc1, hgetB, h2, hgetS, hF,
                          Option.pure_def]
                      · rw [cursorLookup_setVal_chain, getStr_setVal_str, hlcur]
                      · intro v hv
                        rw [hlcur] at hv
                        exact Option.noConfusion hv
                      · exact ⟨_, getObj_setVal_obj _ _ _, _, getObj_setVal_obj _ _ _⟩
                  | some jf =>
                      rw [hF] at hshape3
                      cases jf with
                      | str v =>
                          have hlcur : RailzAiIncrementalServiceSlicer.cursorLookup
                              cursor b s cursorField = some v := by
                            simp [RailzAiIncrementalServiceSlicer.cursorLookup, getObj, hB,
                              asObj, hS, getStr, hF, asStr]
                          by_cases hvr : v < r
                          · refine ⟨setVal cursor b
                                (Json.obj (setVal bo s
                                  (Json.obj (setVal so cursorField (Json.str r))))),
                                ?_, ?_, ?_, ?_⟩
                            · simp only [RailzAiIncrementalServiceSlicer.update_cursor, hb,
                                hs, hr, Option.bind_eq_bind, Option.some_bind, hc1, hgetB,
                                h2, hgetS, hF, asStr, hvr, if_true, Option.pure_def]
                            · rw [cursorLookup_setVal_chain, getStr_setVal_str, hlcur]
                              show some r = some (max v r)
                              rw [max_eq_right hvr.le]
                            · intro w hw
                              rw [hlcur] at hw
                              cases hw
                              exact ⟨r, by rw [cursorLookup_setVal_chain, getStr_setVal_str],
                                hvr.le⟩
                            · exact ⟨_, getObj_setVal_obj _ _ _, _, getObj_setVal_obj _ _ _⟩
                          · refine ⟨setVal cursor b (Json.obj (setVal bo s (Json.obj so))),
                                ?_, ?_, ?_, ?_⟩
                            · simp only [RailzAiIncrementalServiceSlicer.update_cursor, hb,
                                hs, hr, Option.bind_eq_bind, Option.some_bind, hc1, hgetB,
                                h2, hgetS, hF, asStr, hvr, if_false, Option.pure_def]
                            · have hsvc : getStr so cursorField = some v := by
                                rw [getStr, hF]
                                rfl
                              rw [cursorLookup_setVal_chain, hsvc, hlcur]
                              show some v = some (max v r)
                              rw [max_eq_left (le_of_not_lt hvr)]
                            · intro w hw
                              rw [hlcur] at hw
                              cases hw
                              have hsvc2 : getStr so cursorField = some v := by
                                rw [getStr, hF]
                                rfl
                              exact ⟨v, by rw [cursorLookup_setVal_chain, hsvc2], le_refl v⟩
                            · exact ⟨_, getObj_setVal_obj _ _ _, _, getObj_setVal_obj _ _ _⟩
                      | num n => exact hshape3.elim
                      | bool bv => exact hshape3.elim
                      | null => exact hshape3.elim
                      | arr l => exact hshape3.elim
                      | obj o => exact hshape3.elim
              | str sv => exact hshape2.elim
              | num n => exact hshape2.elim
              | bool bv => exact hshape2.elim
              | null => exact hshape2.elim
              | arr l => exact hshape2.elim
      | str sv => exact hshape.elim
      | num n => exact hshape.elim
      | bool bv => exact hshape.elim
      | null => exact hshape.elim
      | arr l => exact hshape.elim

theorem C1_inc_update_cursor_monotone_witness :
    ∃ result,
      RailzAiIncrementalServiceSlicer.update_cursor "f"
          [("B", Json.obj [("S", Json.obj [("f", Json.str "a")])])]
          [("businessName", Json.str "B"), ("serviceName", Json.str "S")]
          (some [("f", Json.str "a")]) = some result ∧
      RailzAiIncrementalServiceSlicer.cursorLookup result "B" "S" "f" = some "a" := by
  obtain ⟨result, h1, h2, h3, h4⟩ := C1_inc_update_cursor_monotone "f"
    [("B", Json.obj [("S", Json.obj [("f", Json.str "a")])])]
    [("businessName", Json.str "B"), ("serviceName", Json.str "S")]
    [("f", Json.str "a")] "B" "S" "a" rfl rfl rfl (by trivial)
  refine ⟨result, h1, ?_⟩
  rw [h2]
  have hl : RailzAiIncrementalServiceSlicer.cursorLookup
      [("B", Json.obj [("S", Json.obj [("f", Json.str "a")])])] "B" "S" "f"
      = some "a" := rfl
  rw [hl]
  show some (max "a" "a") = some "a"
  rw [max_self]

/-! ### C7: nested extractor propagation and prefix wrapping -/

theorem propagate_into_not_mem (props : List String) (obj child : JObj) (k : String)
    (hk : k ∉ props) :
    getVal (RailzNestedExtractor.propagate_into props obj child) k = getVal child k := by
  induction props generalizing child with
  | nil => rfl
  | cons p ps ih =>
      have hkp : k ≠ p := fun hh => hk (by simp [hh])
      have hkps : k ∉ ps := fun hh => hk (by simp [hh])
      rw [RailzNestedExtractor.propagate_into, List.foldl_cons]
      cases hp : getVal obj p with
      | none =>
          exact ih child hkps
      | some w =>
          show getVal (RailzNestedExtractor.propagate_into ps obj (setVal child p w)) k
            = getVal child k
          rw [ih (setVal child p w) hkps]
          exact getVal_setVal_ne child p k w hkp

theorem propagate_into_obj_none (props : List String) (obj child : JObj) (k : String)
    (h : getVal obj k = none) :
    getVal (RailzNestedExtractor.propagate_into props obj child) k = getVal child k := by
  induction props generalizing child with
  | nil => rfl
  | cons p ps ih =>
      rw [RailzNestedExtractor.propagate_into, List.foldl_cons]
      cases hp : getVal obj p with
      | none =>
          exact ih child
      | some w =>
          have hkp : k ≠ p := by
            intro hh
            rw [hh, hp] at h
            exact Option.noConfusion h
          show getVal (RailzNestedExtractor.propagate_into ps obj (setVal child p w)) k
            = getVal child k
          rw [ih (setVal child p w)]
          exact getVal_setVal_ne child p k w hkp

theorem propagate_into_mem (props : List String) (obj child : JObj) (k : String) (v : Json)
    (hk : k ∈ props) (hv : getVal obj k = some v) :
    getVal (RailzNestedExtractor.propagate_into props obj child) k = some v := by
  induction props generalizing child with
  | nil => exact absurd hk (List.not_mem_nil k)
  | cons p ps ih =>
      by_cases hmem : k ∈ ps
      · rw [RailzNestedExtractor.propagate_into, List.foldl_cons]
        cases hp : getVal obj p with
        | none => exact ih child hmem
        | some w => exact ih (setVal child p w) hmem
      · have hkp : k = p := by
          rcases List.mem_cons.mp hk with h | h
          · exact h
          · exact absurd h hmem
        subst hkp
        rw [RailzNestedExtractor.propagate_into, List.foldl_cons, hv]
        show getVal (RailzNestedExtractor.propagate_into ps obj (setVal child k v)) k
          = some v
        rw [propagate_into_not_mem ps obj _ k hmem]
        exact getVal_setVal_self child k v

/-- C7: at each level `_extract_records` copies every propagate field present
on the current object onto each child about to be visited (fields absent from
the object, or outside the propagate list, leave the child untouched); at the
final path segment each propagated child is a result record; a truthy
`prefix_key` wraps every extracted record as `{prefixKey: record}`; and the
`{"items":[{"id":1},{"id":2}],"owner":"X"}` example with path `["items"]` and
propagate `["owner"]` extracts exactly
`[{"id":1,"owner":"X"},{"id":2,"owner":"X"}]` in order. -/
theorem C7_extractor_propagates_and_wraps :
    (∀ (props : List String) (obj child : JObj) (k : String) (v : Json),
      k ∈ props → getVal obj k = some v →
      getVal (RailzNestedExtractor.propagate_into props obj child) k = some v) ∧
    (∀ (props : List String) (obj child : JObj) (k : String),
      k ∉ props ∨ getVal obj k = none →
      getVal (RailzNestedExtractor.propagate_into props obj child) k = getVal child k) ∧
    (∀ (props : List String) (fieldName : String) (obj : JObj) (children : List Json)
        (childObjs : List JObj),
      getVal obj fieldName = some (Json.arr children) →
      children.mapM asObj = some childObjs →
      RailzNestedExtractor.extract_records_aux props [fieldName] obj
        = some (childObjs.map (RailzNestedExtractor.propagate_into props obj))) ∧
    (∀ (nested props : List String) (k : String) (resp : JObj),
      k ≠ "" →
      RailzNestedExtractor.extract_records ⟨nested, props, some k⟩ resp
        = (RailzNestedExtractor.extract_records ⟨nested, props, none⟩ resp).map
            (List.map (fun j => Json.obj [(k, j)]))) ∧
    RailzNestedExtractor.extract_records ⟨["items"], ["owner"], none⟩
        [("items", Json.arr [Json.obj [("id", Json.num 1)], Json.obj [("id", Json.num 2)]]),
         ("owner", Json.str "X")]
      = some [Json.obj [("id", Json.num 1), ("owner", Json.str "X")],
          Json.obj [("id", Json.num 2), ("owner", Json.str "X")]] := by
  refine ⟨propagate_into_mem, ?_, ?_, ?_, rfl⟩
  · intro props obj child k h
    rcases h with h | h
    · exact propagate_into_not_mem props obj child k h
    · exact propagate_into_obj_none props obj child k h
  · intro props fieldName obj children childObjs hf hmapM
    simp only [RailzNestedExtractor.extract_records_aux, hf, asArr, Option.bind_eq_bind,
      Option.some_bind, hmapM, Option.pure_def]
  · intro nested props k resp hk
    rw [RailzNestedExtractor.extract_records, RailzNestedExtractor.extract_records]
    cases h : RailzNestedExtractor.extract_records_aux props nested resp with
    | none => rfl
    | some recs =>
        simp only [Option.bind_eq_bind, Option.some_bind, Option.pure_def, Option.map_some',
          List.map_map]
        simp [hk, Function.comp]

theorem C7_extractor_propagates_and_wraps_witness :
    getVal (RailzNestedExtractor.propagate_into ["owner"]
        [("owner", Json.str "X")] [("id", Json.num 1)]) "owner" = some (Json.str "X") ∧
    RailzNestedExtractor.extract_records_aux ["owner"] ["items"]
        [("items", Json.arr [Json.obj [("id", Json.num 1)]]), ("owner", Json.str "X")]
      = some ([[("id", Json.num 1)]].map (RailzNestedExtractor.propagate_into ["owner"]
          [("items", Json.arr [Json.obj [("id", Json.num 1)]]), ("owner", Json.str "X")])) ∧
    RailzNestedExtractor.extract_records ⟨["items"], [], some "wrap"⟩ [("items", Json.arr [])]
      = (RailzNestedExtractor.extract_records ⟨["items"], [], none⟩
          [("items", Json.arr [])]).map (List.map (fun j => Json.obj [("wrap", j)])) := by
  refine ⟨?_, ?_, ?_⟩
  · exact C7_extractor_propagates_and_wraps.1 ["owner"] [("owner", Json.str "X")]
      [("id", Json.num 1)] "owner" (Json.str "X") (by simp) rfl
  · exact C7_extractor_propagates_and_wraps.2.2.1 ["owner"] "items"
      [("items", Json.arr [Json.obj [("id", Json.num 1)]]), ("owner", Json.str "X")]
      [Json.obj [("id", Json.num 1)]] [[("id", Json.num 1)]] rfl rfl
  · exact C7_extractor_propagates_and_wraps.2.2.2.1 ["items"] [] "wrap"
      [("items", Json.arr [])] (by decide)

end RailzAi
